import Mathlib

/-!
Verification of the pv-migrate migration engine and its CLI entry point.

The embedding follows `src/internal/app/app.go` for the CLI layer (the
`migrate` command's `Action`, the flag defaults, and the fixed strategy
registry handed to the engine).  The engine, the strategy implementations
and the request constructors live in packages that are referenced by
`app.go` but whose sources are not part of this tree; those parts are
modelled from the specification (sections 3, 4.2, 4.3 and 7 of spec.md) and
each such definition says so in its doc comment.
-/

namespace PvMigrate

/-- The three concrete strategy types registered in `app.go` lines 31-37:
`mountboth.MountBoth`, `rsyncsshincluster.RsyncSSSHInCluster`,
`rsyncsshcrosscluster.RsyncSSHCrossCluster`. -/
inductive StrategyId where
  | mountBoth
  | rsyncSSSHInCluster
  | rsyncSSHCrossCluster
deriving DecidableEq, Repr

/-- Modelled from the spec: a StrategyIdentifier is "a stable name used for
override matching and logging" (spec section 3); the concrete name strings of
the strategy packages are not in this tree, so stable distinct names are
chosen here. -/
def StrategyId.name : StrategyId → String
  | .mountBoth => "mount-both"
  | .rsyncSSSHInCluster => "rsync-ssh-in-cluster"
  | .rsyncSSHCrossCluster => "rsync-ssh-cross-cluster"

/-- The fixed default registry, `var strategies` in `app.go` lines 31-37, in
source order: co-mount, same-cluster tunnel, cross-cluster tunnel. -/
def strategies : List StrategyId :=
  [StrategyId.mountBoth, StrategyId.rsyncSSSHInCluster, StrategyId.rsyncSSHCrossCluster]

/-- Modelled from the spec: a VolumeLocator / request PVC (spec section 3);
`request.NewPVC` in `app.go` line 62 builds one from kubeconfig, context,
namespace and name.  The missing `request` package constructor is modelled as
a plain record constructor. -/
structure PVC where
  kubeconfig : String
  context : String
  nsName : String
  name : String
deriving DecidableEq, Repr

/-- Modelled from the spec: TransferOptions (spec section 3);
`request.NewOptions` in `app.go` line 64 builds one from the two boolean
flags. -/
structure Options where
  deleteExtraneousFiles : Bool
  ignoreMounted : Bool
deriving DecidableEq, Repr

/-- Modelled from the spec: a Request (spec section 3); `request.New` in
`app.go` lines 68-69 builds one from the two PVCs, the options, the strategy
override list and the two image references. -/
structure Request where
  source : PVC
  dest : PVC
  options : Options
  strategyOverride : List String
  rsyncImage : String
  sshdImage : String
deriving DecidableEq, Repr

/-- Modelled from the spec: the Mount/Capability Inspector's answers and the
cluster topology facts a strategy's applicability check consults (spec
sections 2 and 4.1-4.2). -/
structure Inspection where
  sourceMounted : Bool
  destMounted : Bool
  sameNode : Bool
  sameCluster : Bool
deriving DecidableEq, Repr

/-- Modelled from the spec: typed failure causes of a strategy attempt (spec
section 7). -/
inductive Cause where
  | provisioningFailed
  | readinessTimeout
  | transferFailed
  | cancelled
deriving DecidableEq, Repr

/-- Modelled from the spec: outcome of one strategy attempt, part of
AttemptResult (spec section 3). -/
inductive Outcome where
  | succeeded
  | notApplicable
  | failed (cause : Cause)
deriving DecidableEq, Repr

/-- Modelled from the spec: AttemptResult (spec section 3), minus the elapsed
time which has no bearing on the verified properties. -/
structure AttemptResult where
  strategy : StrategyId
  outcome : Outcome
deriving DecidableEq, Repr

/-- Modelled from the spec: observability events of a run, including the
lifecycle of every ephemeral cluster resource (spec sections 3, 4.2 and 6).
A `provision` event is an attempt to create one ephemeral cluster object
(`ok` says whether the cluster accepted it); a `teardown` event destroys one
previously created object. -/
inductive Event where
  | applicableCheck (s : StrategyId) (result : Bool)
  | executeStart (s : StrategyId)
  | provision (s : StrategyId) (ok : Bool)
  | teardown (s : StrategyId)
  | executeEnd (s : StrategyId) (ok : Bool)
deriving DecidableEq, Repr

/-- An event that touches ephemeral cluster resources. -/
def Event.isResourceEvent : Event → Bool
  | .provision _ _ => true
  | .teardown _ => true
  | _ => false

/-- A teardown event. -/
def Event.isTeardown : Event → Bool
  | .teardown _ => true
  | _ => false

/-- A successful provisioning event. -/
def Event.isProvisionOk : Event → Bool
  | .provision _ ok => ok
  | _ => false

/-- Modelled from the spec: how the transfer phase of one attempt ends once
all provisioning succeeded (spec sections 4.2, 5 and 7): the transfer
completes, the transfer tool exits non-zero, a provisioned resource misses
its readiness bound, or the attempt is cancelled externally. -/
inductive TransferOutcome where
  | completed
  | failed
  | readinessTimeout
  | cancelled
deriving DecidableEq, Repr

/-- Modelled from the spec: the environment one strategy execution runs in:
which of its ephemeral resource creations the cluster accepts, in order, and
how the transfer phase ends (spec sections 4.2 and 5). -/
structure ExecEnv where
  provisionPlan : List Bool
  transfer : TransferOutcome
deriving DecidableEq, Repr

/-- Modelled from the spec: provisioning acquires the planned resources in
order and stops at the first failure (spec section 4.2: "acquire what you
can").  Returns the emitted events, the number of successfully acquired
resources, and whether all of them were acquired. -/
def provisionPhase (s : StrategyId) : List Bool → List Event × Nat × Bool
  | [] => ([], 0, true)
  | ok :: rest =>
    if ok then
      let r := provisionPhase s rest
      (Event.provision s true :: r.1, r.2.1 + 1, r.2.2)
    else ([Event.provision s false], 0, false)

/-- Modelled from the spec: one strategy execution (spec section 4.2
`execute`): provision the EphemeralResourceSet, run the transfer if
provisioning fully succeeded, then unconditionally release exactly the
resources that were acquired, on every exit path.  Returns the event trace
and `none` on success or the typed failure cause. -/
def executeModel (s : StrategyId) (env : ExecEnv) : List Event × Option Cause :=
  let p := provisionPhase s env.provisionPlan
  let cause : Option Cause :=
    if p.2.2 then
      match env.transfer with
      | .completed => none
      | .failed => some .transferFailed
      | .readinessTimeout => some .readinessTimeout
      | .cancelled => some .cancelled
    else some .provisioningFailed
  (p.1 ++ List.replicate p.2.1 (Event.teardown s), cause)

/-- Modelled from the spec: a strategy's applicability check (spec sections
4.1-4.2): the mount-safety gate first (when `ignoreMounted` is false and
either side is mounted, every strategy refuses), then the per-variant
topology precondition. -/
def applicableModel (s : StrategyId) (req : Request) (ins : Inspection) : Bool :=
  if !req.options.ignoreMounted && (ins.sourceMounted || ins.destMounted) then
    false
  else
    match s with
    | .mountBoth => ins.sameCluster && ins.sameNode
    | .rsyncSSSHInCluster => ins.sameCluster
    | .rsyncSSHCrossCluster => true

/-- Modelled from the spec: the Engine's error taxonomy at the request level
(spec section 7): ConfigurationError, or ExhaustedFailed carrying every
attempted strategy's outcome. -/
inductive EngineError where
  | configuration (msg : String)
  | exhausted (results : List AttemptResult)
deriving DecidableEq, Repr

/-- Whether a string occurs more than once in the list. -/
def hasDuplicate : List String → Bool
  | [] => false
  | x :: xs => xs.contains x || hasDuplicate xs

/-- Modelled from the spec: map every override identifier to its registry
entry, in the caller's given order; an unknown identifier is a
ConfigurationError (spec section 4.3 step 1, section 7). -/
def lookupStrategies (registry : List StrategyId) :
    List String → Except EngineError (List StrategyId)
  | [] => .ok []
  | n :: ns =>
    match registry.find? (fun s => s.name == n) with
    | some s =>
      match lookupStrategies registry ns with
      | .ok rest => .ok (s :: rest)
      | .error e => .error e
    | none => .error (.configuration ("unknown strategy: " ++ n))

/-- Modelled from the spec: resolve the effective candidate list (spec
section 4.3 step 1): empty override means the full default priority order;
otherwise validate every identifier and preserve the caller's order,
rejecting duplicates. -/
def resolveCandidates (registry : List StrategyId) (override : List String) :
    Except EngineError (List StrategyId) :=
  if override.isEmpty then .ok registry
  else if hasDuplicate override then
    .error (.configuration "duplicate strategy in override")
  else lookupStrategies registry override

/-- Result of evaluating the candidate list: the event trace, the accumulated
AttemptResult sequence in attempt order, and whether some candidate
succeeded. -/
structure LoopOut where
  events : List Event
  attempts : List AttemptResult
  succeeded : Bool
deriving DecidableEq, Repr

/-- Modelled from the spec: the Engine's sequential fallback loop (spec
section 4.3 step 2): for each candidate in order, check applicability; if not
applicable, record it and continue; if applicable, execute; on success record
outcome=succeeded and stop; on failure record the cause and continue. -/
def runLoop (req : Request) (ins : Inspection) (envOf : StrategyId → ExecEnv) :
    List StrategyId → LoopOut
  | [] => ⟨[], [], false⟩
  | s :: rest =>
    if applicableModel s req ins then
      let ex := executeModel s (envOf s)
      match ex.2 with
      | none =>
        ⟨Event.applicableCheck s true :: Event.executeStart s ::
            (ex.1 ++ [Event.executeEnd s true]),
          [⟨s, Outcome.succeeded⟩], true⟩
      | some c =>
        let r := runLoop req ins envOf rest
        ⟨Event.applicableCheck s true :: Event.executeStart s ::
            (ex.1 ++ Event.executeEnd s false :: r.events),
          ⟨s, Outcome.failed c⟩ :: r.attempts, r.succeeded⟩
    else
      let r := runLoop req ins envOf rest
      ⟨Event.applicableCheck s false :: r.events,
        ⟨s, Outcome.notApplicable⟩ :: r.attempts, r.succeeded⟩

/-- Final result of one Engine run. -/
structure RunResult where
  events : List Event
  attempts : List AttemptResult
  result : Except EngineError Unit
deriving Repr

/-- Modelled from the spec: the Engine's `run(request)` contract (spec
section 4.3): resolve the candidate list (ConfigurationError if invalid or
empty), attempt the candidates in order, succeed on the first full success,
and otherwise fail with an aggregate error enumerating every attempt's
outcome in order. -/
def engineRun (req : Request) (ins : Inspection) (envOf : StrategyId → ExecEnv) :
    RunResult :=
  match resolveCandidates strategies req.strategyOverride with
  | .error e => ⟨[], [], .error e⟩
  | .ok cands =>
    if cands.isEmpty then
      ⟨[], [], .error (.configuration "empty candidate list")⟩
    else
      let r := runLoop req ins envOf cands
      ⟨r.events, r.attempts,
        if r.succeeded then .ok () else .error (.exhausted r.attempts)⟩

/-- `c.Args().Get(i)` of the CLI library used by `app.go` lines 54 and 58:
returns the i-th positional argument, or the empty string when there are
fewer arguments. -/
def argGet (args : List String) (i : Nat) : String :=
  (args.get? i).getD ""

/-- The flag values handed to the `migrate` Action by the CLI layer, one
field per flag read in `app.go` lines 51-66. -/
structure Flags where
  sourceKubeconfig : String
  sourceContext : String
  sourceNamespace : String
  destKubeconfig : String
  destContext : String
  destNamespace : String
  destDeleteExtraneousFiles : Bool
  ignoreMounted : Bool
  overrideStrategies : List String
  rsyncImage : String
  sshdImage : String
deriving DecidableEq, Repr

/-- What the user actually passed on the command line: `none` means the flag
was not given, so the CLI library substitutes the declared default `Value`
from the flag definitions in `app.go` lines 78-154. -/
structure GivenFlags where
  sourceKubeconfig : Option String
  sourceContext : Option String
  sourceNamespace : Option String
  destKubeconfig : Option String
  destContext : Option String
  destNamespace : Option String
  destDeleteExtraneousFiles : Option Bool
  ignoreMounted : Option Bool
  overrideStrategies : Option (List String)
  rsyncImage : Option String
  sshdImage : Option String
deriving DecidableEq, Repr

/-- Modelled from the spec: the `request` package's default for the
`ignore-mounted` flag (`request.DefaultIgnoreMounted`, `app.go` line 133);
spec section 4.1 treats refusing mounted volumes as the safety default. -/
def DefaultIgnoreMounted : Bool := false

/-- Resolution of flag defaults per the flag definitions in `app.go` lines
78-154: every string flag defaults to `""` or to an image name, the
`dest-delete-extraneous-files` flag to `false` (line 127), `ignore-mounted`
to `request.DefaultIgnoreMounted` (line 133), and `override-strategies` to
nil (line 139). -/
def resolveFlags (g : GivenFlags) : Flags where
  sourceKubeconfig := g.sourceKubeconfig.getD ""
  sourceContext := g.sourceContext.getD ""
  sourceNamespace := g.sourceNamespace.getD ""
  destKubeconfig := g.destKubeconfig.getD ""
  destContext := g.destContext.getD ""
  destNamespace := g.destNamespace.getD ""
  destDeleteExtraneousFiles := g.destDeleteExtraneousFiles.getD false
  ignoreMounted := g.ignoreMounted.getD DefaultIgnoreMounted
  overrideStrategies := g.overrideStrategies.getD []
  rsyncImage := g.rsyncImage.getD "docker.io/instrumentisto/rsync-ssh:alpine"
  sshdImage := g.sshdImage.getD "docker.io/panubo/sshd:latest"

/-- What the `migrate` Action produces before handing off to the engine: the
constructed Request and the informational log lines it emitted. -/
structure ActionOut where
  req : Request
  infoLogs : List String
deriving DecidableEq, Repr

/-- The `migrate` command's `Action` (`app.go` lines 50-77): read the flags,
take positional arguments 0 and 1 as source and destination PVC names (empty
when missing — no presence validation), construct the Request, emit the
extraneous-files notice when the delete option is set, and hand the Request
to `executeRequest`. -/
def migrateAction (flags : Flags) (args : List String) : ActionOut :=
  let source := argGet args 0
  let dest := argGet args 1
  let req : Request :=
    { source := ⟨flags.sourceKubeconfig, flags.sourceContext, flags.sourceNamespace, source⟩
      dest := ⟨flags.destKubeconfig, flags.destContext, flags.destNamespace, dest⟩
      options := ⟨flags.destDeleteExtraneousFiles, flags.ignoreMounted⟩
      strategyOverride := flags.overrideStrategies
      rsyncImage := flags.rsyncImage
      sshdImage := flags.sshdImage }
  let logs :=
    if flags.destDeleteExtraneousFiles then
      ["Extraneous files will be deleted from the destination"]
    else []
  ⟨req, logs⟩

/-- The full command path: the Action builds the Request (`app.go` lines
50-76) and `executeRequest` (`app.go` lines 166-185) runs the engine, built
over the fixed `strategies` registry, on it. -/
def migrateCommand (flags : Flags) (args : List String) (ins : Inspection)
    (envOf : StrategyId → ExecEnv) : RunResult × List String :=
  let out := migrateAction flags args
  (engineRun out.req ins envOf, out.infoLogs)

/-- Modelled from the spec: the transfer's mirroring copy semantics on volume
content, represented as path-content associations (spec sections 3 and 8,
glossary "Mirroring"): every source file is copied to the destination; when
`deleteExtraneous` is set, destination files absent from the source are
removed, otherwise they are kept. -/
def syncContent (deleteExtraneous : Bool) (src dst : List (String × String)) :
    List (String × String) :=
  if deleteExtraneous then src
  else src ++ dst.filter (fun p => (src.lookup p.1).isNone)

/-- Modelled from the spec: the effect of one fully successful migration of
`req` on the destination content (spec section 8, idempotence property). -/
def migrateContent (req : Request) (src dst : List (String × String)) :
    List (String × String) :=
  syncContent req.options.deleteExtraneousFiles src dst

/-- A concrete flag set: all defaults except namespaces and images. -/
def flagsW : Flags :=
  ⟨"", "", "ns1", "", "", "ns2", false, false, [], "rsync-img", "sshd-img"⟩

/-- A concrete flag set with every flag left unset. -/
def givenFlagsW : GivenFlags :=
  ⟨none, none, none, none, none, none, none, none, none, none, none⟩

/-- A concrete Request with an empty strategy override, as the Action builds
it from two positional arguments. -/
def reqW : Request := (migrateAction flagsW ["pvc-a", "pvc-b"]).req

/-- A concrete Request whose override names an unregistered strategy. -/
def reqUnknownW : Request := { reqW with strategyOverride := ["bogus"] }

/-- A concrete Request with mirror deletion enabled. -/
def reqDelW : Request := { reqW with options := ⟨true, false⟩ }

/-- A concrete inspection: both volumes unmounted, same node, same cluster. -/
def insW : Inspection := ⟨false, false, true, true⟩

/-- A concrete inspection: the source volume is mounted. -/
def insMountedW : Inspection := ⟨true, false, true, true⟩

/-- A concrete execution environment in which every strategy provisions two
resources successfully and the transfer completes. -/
def envW : StrategyId → ExecEnv := fun _ => ⟨[true, true], TransferOutcome.completed⟩

/-- A concrete execution environment in which every strategy's first
provisioning call is rejected by the cluster. -/
def envFailW : StrategyId → ExecEnv := fun _ => ⟨[false], TransferOutcome.completed⟩

/-- Provisioning emits exactly as many successful-provision events as
resources it acquired, and no teardown events. -/
theorem provisionPhase_counts (s : StrategyId) (plan : List Bool) :
    (provisionPhase s plan).1.countP Event.isProvisionOk = (provisionPhase s plan).2.1 ∧
    (provisionPhase s plan).1.countP Event.isTeardown = 0 := by
  induction plan with
  | nil => simp [provisionPhase, List.countP, List.countP.go]
  | cons b rest ih =>
    cases b with
    | true =>
      simp only [provisionPhase, if_pos rfl, List.countP_cons]
      simp [Event.isProvisionOk, Event.isTeardown, ih.1, ih.2]
    | false =>
      simp [provisionPhase, List.countP, List.countP.go, Event.isProvisionOk,
        Event.isTeardown]

/-- The run loop only ever attempts a prefix of its candidate list, in
order. -/
theorem runLoop_attempts_take (req : Request) (ins : Inspection)
    (envOf : StrategyId → ExecEnv) (cs : List StrategyId) :
    ∃ k, (runLoop req ins envOf cs).attempts.map AttemptResult.strategy = cs.take k := by
  induction cs with
  | nil => exact ⟨0, by simp [runLoop]⟩
  | cons s rest ih =>
    by_cases happ : applicableModel s req ins
    · cases hex : (executeModel s (envOf s)).2 with
      | none =>
        refine ⟨1, ?_⟩
        simp [runLoop, happ, hex]
      | some c =>
        obtain ⟨k, hk⟩ := ih
        refine ⟨k + 1, ?_⟩
        simp [runLoop, happ, hex, hk]
    · obtain ⟨k, hk⟩ := ih
      refine ⟨k + 1, ?_⟩
      simp [runLoop, happ, hk]

/-- When the loop exhausts its candidates without success, every candidate
got exactly one attempt record, in order. -/
theorem runLoop_exhausted_attempts (req : Request) (ins : Inspection)
    (envOf : StrategyId → ExecEnv) (cs : List StrategyId)
    (h : (runLoop req ins envOf cs).succeeded = false) :
    (runLoop req ins envOf cs).attempts.map AttemptResult.strategy = cs := by
  induction cs with
  | nil => simp [runLoop]
  | cons s rest ih =>
    by_cases happ : applicableModel s req ins
    · cases hex : (executeModel s (envOf s)).2 with
      | none => simp [runLoop, happ, hex] at h
      | some c =>
        simp only [runLoop, if_pos happ, hex] at h ⊢
        simp only [List.map_cons, List.cons.injEq, true_and]
        exact ih h
    · simp only [runLoop, if_neg happ] at h ⊢
      simp only [List.map_cons, List.cons.injEq, true_and]
      exact ih h

/-- When no candidate is applicable, the loop records a not-applicable
attempt per candidate, emits only applicability-check events, and does not
succeed. -/
theorem runLoop_all_notApplicable (req : Request) (ins : Inspection)
    (envOf : StrategyId → ExecEnv) (cs : List StrategyId)
    (h : ∀ s ∈ cs, applicableModel s req ins = false) :
    runLoop req ins envOf cs =
      ⟨cs.map (fun s => Event.applicableCheck s false),
        cs.map (fun s => ⟨s, Outcome.notApplicable⟩), false⟩ := by
  induction cs with
  | nil => simp [runLoop]
  | cons s rest ih =>
    have hs : applicableModel s req ins = false := h s (by simp)
    have hrest : ∀ t ∈ rest, applicableModel t req ins = false := by
      intro t ht
      exact h t (by simp [ht])
    simp [runLoop, hs, ih hrest]

/-- Resolving an override in which every identifier is registered succeeds
and preserves the caller's names in order. -/
theorem lookupStrategies_ok (reg : List StrategyId) (ns : List String)
    (h : ∀ n ∈ ns, n ∈ reg.map StrategyId.name) :
    ∃ cs, lookupStrategies reg ns = .ok cs ∧ cs.map StrategyId.name = ns := by
  induction ns with
  | nil => exact ⟨[], rfl, rfl⟩
  | cons n rest ih =>
    have hn : n ∈ reg.map StrategyId.name := h n (by simp)
    obtain ⟨s0, hs0, hname⟩ := List.mem_map.mp hn
    have hfind : ∃ s, reg.find? (fun s => s.name == n) = some s := by
      cases hf : reg.find? (fun s => s.name == n) with
      | none =>
        have := List.find?_eq_none.mp hf s0 hs0
        simp [hname] at this
      | some s => exact ⟨s, rfl⟩
    obtain ⟨s, hs⟩ := hfind
    have hsname : s.name = n := by
      have := List.find?_some hs
      exact eq_of_beq this
    obtain ⟨cs, hcs, hmap⟩ := ih (fun m hm => h m (by simp [hm]))
    exact ⟨s :: cs, by simp [lookupStrategies, hs, hcs], by simp [hsname, hmap]⟩

/-- Resolving an override that names an unregistered identifier fails with a
ConfigurationError. -/
theorem lookupStrategies_err (reg : List StrategyId) (ns : List String)
    (n : String) (hmem : n ∈ ns) (habs : n ∉ reg.map StrategyId.name) :
    ∃ msg, lookupStrategies reg ns = .error (.configuration msg) := by
  induction ns with
  | nil => cases hmem
  | cons m rest ih =>
    cases hf : reg.find? (fun s => s.name == m) with
    | none =>
      exact ⟨"unknown strategy: " ++ m, by simp [lookupStrategies, hf]⟩
    | some s =>
      have hsm : s.name = m := by
        have := List.find?_some hf
        exact eq_of_beq this
      have hninrest : n ∈ rest := by
        rcases List.mem_cons.mp hmem with h1 | h1
        · exfalso
          apply habs
          exact h1 ▸ hsm ▸ List.mem_map_of_mem StrategyId.name (List.mem_of_find?_eq_some hf)
        · exact h1
      obtain ⟨msg, hmsg⟩ := ih hninrest
      exact ⟨msg, by simp [lookupStrategies, hf, hmsg]⟩

/-- Successful lookup preserves length. -/
theorem lookupStrategies_length (reg : List StrategyId) (ns : List String)
    (cs : List StrategyId) (h : lookupStrategies reg ns = .ok cs) :
    cs.length = ns.length := by
  induction ns generalizing cs with
  | nil =>
    simp only [lookupStrategies] at h
    cases h
    rfl
  | cons n rest ih =>
    simp only [lookupStrategies] at h
    cases hf : reg.find? (fun s => s.name == n) with
    | none => simp [hf] at h
    | some s =>
      rw [hf] at h
      cases hl : lookupStrategies reg rest with
      | ok cs2 =>
        rw [hl] at h
        cases h
        simp [ih cs2 hl]
      | error e => rw [hl] at h; cases h

/-- A successfully resolved candidate list is never empty (the registry is
non-empty and a non-empty override resolves to a list of the same length). -/
theorem resolveCandidates_ok_ne_nil (override : List String)
    (cs : List StrategyId)
    (h : resolveCandidates strategies override = .ok cs) : cs ≠ [] := by
  unfold resolveCandidates at h
  by_cases he : override.isEmpty
  · rw [if_pos he] at h
    cases h
    simp [strategies]
  · rw [if_neg he] at h
    by_cases hd : hasDuplicate override
    · simp [hd] at h
    · rw [if_neg hd] at h
      have hlen := lookupStrategies_length strategies override cs h
      intro hnil
      rw [hnil] at hlen
      have : override = [] := List.eq_nil_of_length_eq_zero hlen.symm
      simp [this] at he

/-- Lookup failures are always ConfigurationErrors. -/
theorem lookupStrategies_error_config (reg : List StrategyId) (ns : List String)
    (e : EngineError) (h : lookupStrategies reg ns = .error e) :
    ∃ msg, e = .configuration msg := by
  induction ns with
  | nil => simp [lookupStrategies] at h
  | cons n rest ih =>
    simp only [lookupStrategies] at h
    cases hf : reg.find? (fun s => s.name == n) with
    | none =>
      rw [hf] at h
      cases h
      exact ⟨"unknown strategy: " ++ n, rfl⟩
    | some s =>
      rw [hf] at h
      cases hl : lookupStrategies reg rest with
      | ok cs => rw [hl] at h; cases h
      | error e2 =>
        rw [hl] at h
        cases h
        exact ih hl

/-- Candidate-resolution failures are always ConfigurationErrors. -/
theorem resolveCandidates_error_config (override : List String)
    (e : EngineError) (h : resolveCandidates strategies override = .error e) :
    ∃ msg, e = .configuration msg := by
  unfold resolveCandidates at h
  by_cases he : override.isEmpty
  · rw [if_pos he] at h; cases h
  · rw [if_neg he] at h
    by_cases hd : hasDuplicate override
    · rw [if_pos hd] at h
      cases h
      exact ⟨"duplicate strategy in override", rfl⟩
    · rw [if_neg hd] at h
      exact lookupStrategies_error_config strategies override e h

/-- C1: the strategy registry handed to the engine is the fixed ordered list
[MountBoth, RsyncSSSHInCluster, RsyncSSHCrossCluster] from `app.go` lines
31-37, and every Request with an empty strategyOverride makes the Engine
evaluate candidates in exactly that default priority order (its attempt
sequence is an in-order prefix of that list). -/
theorem c1_default_registry_order :
    strategies =
      [StrategyId.mountBoth, StrategyId.rsyncSSSHInCluster,
        StrategyId.rsyncSSHCrossCluster] ∧
    ∀ (req : Request) (ins : Inspection) (envOf : StrategyId → ExecEnv),
      req.strategyOverride = [] →
      ∃ k, (engineRun req ins envOf).attempts.map AttemptResult.strategy =
        [StrategyId.mountBoth, StrategyId.rsyncSSSHInCluster,
          StrategyId.rsyncSSHCrossCluster].take k := by
  refine ⟨rfl, ?_⟩
  intro req ins envOf hov
  have hres : resolveCandidates strategies req.strategyOverride = .ok strategies := by
    simp [resolveCandidates, hov]
  have hempty : strategies.isEmpty = false := rfl
  simp only [engineRun, hres, hempty, Bool.false_eq_true, if_false]
  exact runLoop_attempts_take req ins envOf strategies

/-- C1 witness at a concrete Request with an empty override. -/
theorem c1_default_registry_order_witness :
    ∃ k, (engineRun reqW insW envW).attempts.map AttemptResult.strategy =
      [StrategyId.mountBoth, StrategyId.rsyncSSSHInCluster,
        StrategyId.rsyncSSHCrossCluster].take k :=
  c1_default_registry_order.2 reqW insW envW rfl

/-- C2: a Request whose strategyOverride contains an identifier absent from
the registry fails with a ConfigurationError, and no strategy is ever
evaluated or executed: the run has no events (in particular no cluster side
effects) and no attempts. -/
theorem c2_unknown_override_config_error :
    ∀ (req : Request) (ins : Inspection) (envOf : StrategyId → ExecEnv)
      (n : String),
      n ∈ req.strategyOverride → n ∉ strategies.map StrategyId.name →
      (∃ msg, (engineRun req ins envOf).result =
        .error (.configuration msg)) ∧
      (engineRun req ins envOf).events = [] ∧
      (engineRun req ins envOf).attempts = [] := by
  intro req ins envOf n hmem habs
  have hne : req.strategyOverride.isEmpty = false := by
    cases hl : req.strategyOverride with
    | nil => rw [hl] at hmem; cases hmem
    | cons a l => simp [hl]
  have hcfg : ∃ msg, resolveCandidates strategies req.strategyOverride =
      .error (.configuration msg) := by
    unfold resolveCandidates
    rw [hne]
    by_cases hd : hasDuplicate req.strategyOverride
    · exact ⟨"duplicate strategy in override", by simp [hd]⟩
    · obtain ⟨msg, hmsg⟩ := lookupStrategies_err strategies req.strategyOverride n hmem habs
      exact ⟨msg, by simp [hd, hmsg]⟩
  obtain ⟨msg, hmsg⟩ := hcfg
  refine ⟨⟨msg, ?_⟩, ?_, ?_⟩ <;> simp [engineRun, hmsg]

/-- C2 witness at a concrete Request naming the unknown strategy "bogus". -/
theorem c2_unknown_override_config_error_witness :
    (∃ msg, (engineRun reqUnknownW insW envW).result =
      .error (.configuration msg)) ∧
    (engineRun reqUnknownW insW envW).events = [] ∧
    (engineRun reqUnknownW insW envW).attempts = [] :=
  c2_unknown_override_config_error reqUnknownW insW envW "bogus"
    (by decide) (by decide)

/-- C3: when a candidate is applicable and its execute succeeds, the Engine
records outcome=succeeded for it and returns success immediately: the run
over that candidate followed by any later candidates equals the run over
that candidate alone, so no later candidate's applicability check or execute
is ever invoked. -/
theorem c3_short_circuit :
    ∀ (req : Request) (ins : Inspection) (envOf : StrategyId → ExecEnv)
      (s : StrategyId) (rest : List StrategyId),
      applicableModel s req ins = true →
      (executeModel s (envOf s)).2 = none →
      runLoop req ins envOf (s :: rest) = runLoop req ins envOf [s] ∧
      (runLoop req ins envOf (s :: rest)).succeeded = true ∧
      (runLoop req ins envOf (s :: rest)).attempts =
        [⟨s, Outcome.succeeded⟩] := by
  intro req ins envOf s rest happ hex
  refine ⟨?_, ?_, ?_⟩ <;> simp [runLoop, happ, hex]

/-- C3 witness: a successful co-mount attempt short-circuits past the
same-cluster tunnel candidate. -/
theorem c3_short_circuit_witness :
    runLoop reqW insW envW [StrategyId.mountBoth, StrategyId.rsyncSSSHInCluster] =
      runLoop reqW insW envW [StrategyId.mountBoth] ∧
    (runLoop reqW insW envW
      [StrategyId.mountBoth, StrategyId.rsyncSSSHInCluster]).succeeded = true ∧
    (runLoop reqW insW envW
      [StrategyId.mountBoth, StrategyId.rsyncSSSHInCluster]).attempts =
      [⟨StrategyId.mountBoth, Outcome.succeeded⟩] :=
  c3_short_circuit reqW insW envW StrategyId.mountBoth
    [StrategyId.rsyncSSSHInCluster] (by decide) (by decide)

/-- C4: with ignoreMounted=false and either volume reported mounted, every
candidate strategy reports not-applicable on the mount-safety gate, the run
ends in ExhaustedFailed carrying all attempts, and no event of the run
touches an ephemeral cluster resource (nothing is ever created). -/
theorem c4_mount_safety_gate :
    ∀ (req : Request) (ins : Inspection) (envOf : StrategyId → ExecEnv)
      (cands : List StrategyId),
      req.options.ignoreMounted = false →
      (ins.sourceMounted || ins.destMounted) = true →
      resolveCandidates strategies req.strategyOverride = .ok cands →
      (∀ a ∈ (engineRun req ins envOf).attempts,
        a.outcome = Outcome.notApplicable) ∧
      (engineRun req ins envOf).attempts.map AttemptResult.strategy = cands ∧
      (engineRun req ins envOf).result =
        .error (.exhausted (engineRun req ins envOf).attempts) ∧
      ∀ e ∈ (engineRun req ins envOf).events, e.isResourceEvent = false := by
  intro req ins envOf cands him hmnt hres
  have hnotapp : ∀ s, applicableModel s req ins = false := by
    intro s
    simp [applicableModel, him, hmnt]
  have hloop := runLoop_all_notApplicable req ins envOf cands (fun s _ => hnotapp s)
  have hne := resolveCandidates_ok_ne_nil _ _ hres
  have hempty : cands.isEmpty = false := by
    cases cands with
    | nil => exact absurd rfl hne
    | cons a l => rfl
  have hrun : engineRun req ins envOf =
      ⟨cands.map (fun s => Event.applicableCheck s false),
        cands.map (fun s => ⟨s, Outcome.notApplicable⟩),
        .error (.exhausted (cands.map (fun s => ⟨s, Outcome.notApplicable⟩)))⟩ := by
    simp [engineRun, hres, hempty, hloop]
  rw [hrun]
  refine ⟨?_, ?_, rfl, ?_⟩
  · intro a ha
    obtain ⟨s, _, rfl⟩ := List.mem_map.mp ha
    rfl
  · have hgen : ∀ l : List StrategyId,
        (l.map (fun s =>
          ({ strategy := s, outcome := Outcome.notApplicable } : AttemptResult))).map
            AttemptResult.strategy = l := by
      intro l
      induction l with
      | nil => rfl
      | cons a t ih => simp [ih]
    exact hgen cands
  · intro e he
    obtain ⟨s, _, rfl⟩ := List.mem_map.mp he
    rfl

/-- C4 witness: a mounted source volume with the default registry. -/
theorem c4_mount_safety_gate_witness :
    (∀ a ∈ (engineRun reqW insMountedW envW).attempts,
      a.outcome = Outcome.notApplicable) ∧
    (engineRun reqW insMountedW envW).attempts.map AttemptResult.strategy =
      strategies ∧
    (engineRun reqW insMountedW envW).result =
      .error (.exhausted (engineRun reqW insMountedW envW).attempts) ∧
    ∀ e ∈ (engineRun reqW insMountedW envW).events, e.isResourceEvent = false :=
  c4_mount_safety_gate reqW insMountedW envW strategies rfl rfl rfl

/-- C5: for every strategy execution, on every exit path (success, transfer
failure, readiness timeout, provisioning failure, cancellation), the trace
contains exactly as many teardown events as successful provisioning events:
the attempt's EphemeralResourceSet never outlives it. -/
theorem c5_no_orphaned_resources (s : StrategyId) (env : ExecEnv) :
    (executeModel s env).1.countP Event.isTeardown =
      (executeModel s env).1.countP Event.isProvisionOk := by
  have h := provisionPhase_counts s env.provisionPlan
  show ((provisionPhase s env.provisionPlan).1 ++
      List.replicate (provisionPhase s env.provisionPlan).2.1
        (Event.teardown s)).countP Event.isTeardown =
    ((provisionPhase s env.provisionPlan).1 ++
      List.replicate (provisionPhase s env.provisionPlan).2.1
        (Event.teardown s)).countP Event.isProvisionOk
  rw [List.countP_append, List.countP_append, h.1, h.2,
    List.countP_replicate, List.countP_replicate]
  simp [Event.isTeardown, Event.isProvisionOk]

/-- C6: a non-empty, duplicate-free strategyOverride naming only registered
identifiers resolves to exactly those strategies in the caller's given
order, and any Request carrying it makes the Engine attempt an in-order
prefix of exactly that list and nothing else; an override containing a
duplicate is rejected with a ConfigurationError. -/
theorem c6_override_order :
    (∀ override : List String, override ≠ [] →
      hasDuplicate override = false →
      (∀ n ∈ override, n ∈ strategies.map StrategyId.name) →
      ∃ cands, resolveCandidates strategies override = .ok cands ∧
        cands.map StrategyId.name = override ∧
        ∀ (req : Request) (ins : Inspection) (envOf : StrategyId → ExecEnv),
          req.strategyOverride = override →
          ∃ k, (engineRun req ins envOf).attempts.map AttemptResult.strategy =
            cands.take k) ∧
    (∀ override : List String, hasDuplicate override = true →
      resolveCandidates strategies override =
        .error (.configuration "duplicate strategy in override")) := by
  constructor
  · intro override hne hdup hreg
    obtain ⟨cands, hcands, hmap⟩ := lookupStrategies_ok strategies override hreg
    have he : override.isEmpty = false := by
      cases override with
      | nil => exact absurd rfl hne
      | cons a l => rfl
    have hres : resolveCandidates strategies override = .ok cands := by
      simp [resolveCandidates, he, hdup, hcands]
    refine ⟨cands, hres, hmap, ?_⟩
    intro req ins envOf hov
    have hres2 : resolveCandidates strategies req.strategyOverride = .ok cands := by
      rw [hov]; exact hres
    have hnil := resolveCandidates_ok_ne_nil _ _ hres2
    have hempty : cands.isEmpty = false := by
      cases cands with
      | nil => exact absurd rfl hnil
      | cons a l => rfl
    simp only [engineRun, hres2, hempty, Bool.false_eq_true, if_false]
    exact runLoop_attempts_take req ins envOf cands
  · intro override hdup
    have he : override.isEmpty = false := by
      cases override with
      | nil => simp [hasDuplicate] at hdup
      | cons a l => rfl
    simp [resolveCandidates, he, hdup]

/-- C6 witness: the override [same-cluster tunnel, co-mount] resolves to
exactly those two strategies in that order, and a duplicated override is
rejected. -/
theorem c6_override_order_witness :
    (∃ cands, resolveCandidates strategies
        ["rsync-ssh-in-cluster", "mount-both"] = .ok cands ∧
      cands.map StrategyId.name = ["rsync-ssh-in-cluster", "mount-both"] ∧
      ∀ (req : Request) (ins : Inspection) (envOf : StrategyId → ExecEnv),
        req.strategyOverride = ["rsync-ssh-in-cluster", "mount-both"] →
        ∃ k, (engineRun req ins envOf).attempts.map AttemptResult.strategy =
          cands.take k) ∧
    resolveCandidates strategies ["mount-both", "mount-both"] =
      .error (.configuration "duplicate strategy in override") :=
  ⟨c6_override_order.1 ["rsync-ssh-in-cluster", "mount-both"]
      (by decide) (by decide) (by decide),
    c6_override_order.2 ["mount-both", "mount-both"] (by decide)⟩

/-- C7: whenever the Engine's run ends in the aggregate ExhaustedFailed
error, that error carries exactly the run's attempt sequence — one outcome
per attempted strategy, in attempt order — and the attempted strategies are
exactly the resolved candidate list, in order. -/
theorem c7_exhausted_aggregate :
    ∀ (req : Request) (ins : Inspection) (envOf : StrategyId → ExecEnv)
      (rs : List AttemptResult),
      (engineRun req ins envOf).result = .error (.exhausted rs) →
      rs = (engineRun req ins envOf).attempts ∧
      ∃ cands, resolveCandidates strategies req.strategyOverride = .ok cands ∧
        rs.map AttemptResult.strategy = cands := by
  intro req ins envOf rs h
  cases hres : resolveCandidates strategies req.strategyOverride with
  | error e =>
    obtain ⟨msg, rfl⟩ := resolveCandidates_error_config _ _ hres
    simp [engineRun, hres] at h
  | ok cands =>
    by_cases hempty : cands.isEmpty
    · simp [engineRun, hres, hempty] at h
    · have hempty2 : cands.isEmpty = false := by
        cases he : cands.isEmpty with
        | true => exact absurd he hempty
        | false => rfl
      by_cases hsucc : (runLoop req ins envOf cands).succeeded
      · simp [engineRun, hres, hempty2, hsucc] at h
      · have hsucc2 : (runLoop req ins envOf cands).succeeded = false := by
          cases hs : (runLoop req ins envOf cands).succeeded with
          | true => exact absurd hs hsucc
          | false => rfl
        have hform : (engineRun req ins envOf).result =
            .error (.exhausted (runLoop req ins envOf cands).attempts) := by
          simp [engineRun, hres, hempty2, hsucc2]
        rw [hform] at h
        have hrs : rs = (runLoop req ins envOf cands).attempts := by
          cases h
          rfl
        have hatt : (engineRun req ins envOf).attempts =
            (runLoop req ins envOf cands).attempts := by
          simp [engineRun, hres, hempty2]
        refine ⟨by rw [hrs, hatt], cands, rfl, ?_⟩
        rw [hrs]
        exact runLoop_exhausted_attempts req ins envOf cands hsucc2

/-- C7 witness: an environment in which every provisioning call fails makes
the run exhaust all three default strategies, and the aggregate error lists
their three failed outcomes in registry order. -/
theorem c7_exhausted_aggregate_witness :
    ([⟨StrategyId.mountBoth, Outcome.failed Cause.provisioningFailed⟩,
      ⟨StrategyId.rsyncSSSHInCluster, Outcome.failed Cause.provisioningFailed⟩,
      ⟨StrategyId.rsyncSSHCrossCluster, Outcome.failed Cause.provisioningFailed⟩] :
        List AttemptResult) = (engineRun reqW insW envFailW).attempts ∧
    ∃ cands, resolveCandidates strategies reqW.strategyOverride = .ok cands ∧
      ([⟨StrategyId.mountBoth, Outcome.failed Cause.provisioningFailed⟩,
        ⟨StrategyId.rsyncSSSHInCluster, Outcome.failed Cause.provisioningFailed⟩,
        ⟨StrategyId.rsyncSSHCrossCluster, Outcome.failed Cause.provisioningFailed⟩] :
          List AttemptResult).map AttemptResult.strategy = cands :=
  c7_exhausted_aggregate reqW insW envFailW
    [⟨StrategyId.mountBoth, Outcome.failed Cause.provisioningFailed⟩,
      ⟨StrategyId.rsyncSSSHInCluster, Outcome.failed Cause.provisioningFailed⟩,
      ⟨StrategyId.rsyncSSHCrossCluster, Outcome.failed Cause.provisioningFailed⟩]
    rfl

/-- C8: with deleteExtraneousAtDestination=true, one successful migration
makes the destination content identical to the source, and running the same
Request a second time leaves it identical to the source (mirror
convergence / idempotence). -/
theorem c8_mirror_idempotent :
    ∀ (req : Request) (src dst : List (String × String)),
      req.options.deleteExtraneousFiles = true →
      migrateContent req src dst = src ∧
      migrateContent req src (migrateContent req src dst) = src := by
  intro req src dst h
  constructor <;> simp [migrateContent, syncContent, h]

/-- C8 witness on concrete one-file volumes. -/
theorem c8_mirror_idempotent_witness :
    migrateContent reqDelW [("a", "1")] [("b", "2")] = [("a", "1")] ∧
    migrateContent reqDelW [("a", "1")]
      (migrateContent reqDelW [("a", "1")] [("b", "2")]) = [("a", "1")] :=
  c8_mirror_idempotent reqDelW [("a", "1")] [("b", "2")] rfl

/-- C9: the migrate Action performs no presence validation of the positional
PVC arguments: with fewer than two arguments it still hands the engine a
constructed Request, whose destination volume name is the empty string (and
whose source name is also empty when no argument was given). -/
theorem c9_no_arg_validation :
    ∀ (flags : Flags) (args : List String) (ins : Inspection)
      (envOf : StrategyId → ExecEnv),
      args.length < 2 →
      (migrateCommand flags args ins envOf).1 =
        engineRun (migrateAction flags args).req ins envOf ∧
      (migrateAction flags args).req.dest.name = "" ∧
      (args.length = 0 → (migrateAction flags args).req.source.name = "") := by
  intro flags args ins envOf hlen
  refine ⟨rfl, ?_, ?_⟩
  · have hget : args[1]? = none := by
      have h2 := List.get?_eq_none.mpr (show args.length ≤ 1 by omega)
      rwa [List.get?_eq_getElem?] at h2
    simp [migrateAction, argGet, hget]
  · intro h0
    have hargs : args = [] := List.eq_nil_of_length_eq_zero h0
    simp [hargs, migrateAction, argGet]

/-- C9 witness: a single positional argument still reaches the engine, with
an empty destination name. -/
theorem c9_no_arg_validation_witness :
    (migrateCommand flagsW ["pvc-a"] insW envW).1 =
      engineRun (migrateAction flagsW ["pvc-a"]).req insW envW ∧
    (migrateAction flagsW ["pvc-a"]).req.dest.name = "" ∧
    (["pvc-a"].length = 0 →
      (migrateAction flagsW ["pvc-a"]).req.source.name = "") :=
  c9_no_arg_validation flagsW ["pvc-a"] insW envW (by decide)

/-- C10: when the dest-delete-extraneous-files flag is not given, the
constructed Request carries deleteExtraneousAtDestination=false (the flag's
declared default), and the informational deletion notice is emitted if and
only if the option is true. -/
theorem c10_delete_extraneous_default :
    (∀ (g : GivenFlags) (args : List String),
      g.destDeleteExtraneousFiles = none →
      (migrateAction (resolveFlags g) args).req.options.deleteExtraneousFiles =
        false) ∧
    (∀ (flags : Flags) (args : List String),
      "Extraneous files will be deleted from the destination" ∈
          (migrateAction flags args).infoLogs ↔
        (migrateAction flags args).req.options.deleteExtraneousFiles = true) := by
  constructor
  · intro g args h
    simp [migrateAction, resolveFlags, h]
  · intro flags args
    by_cases hd : flags.destDeleteExtraneousFiles <;> simp [migrateAction, hd]

/-- C10 witness: all flags left unset yield the option false, and a flag set
that leaves it false emits no notice. -/
theorem c10_delete_extraneous_default_witness :
    (migrateAction (resolveFlags givenFlagsW) []).req.options.deleteExtraneousFiles =
      false ∧
    ("Extraneous files will be deleted from the destination" ∈
        (migrateAction flagsW []).infoLogs ↔
      (migrateAction flagsW []).req.options.deleteExtraneousFiles = true) :=
  ⟨c10_delete_extraneous_default.1 givenFlagsW [] rfl,
    c10_delete_extraneous_default.2 flagsW []⟩

end PvMigrate
